import Mathlib

/- Shallow embedding of the forecasting backend's core modules:
   `app/ml/models/ensemble.py` (EnsembleForecaster),
   `app/ml/exogenous.py` (ExogenousVariableManager),
   `app/ml/inference.py` (ForecastService).

   Modelling conventions:
   * Python floats are modelled as rationals; every constant appearing in the
     code (0.5, 1e-6, 0.03, severities, multipliers) is exactly representable.
   * numpy arrays are lists of rationals; elementwise operations are zipWith/map.
   * Python dicts are association lists in insertion order (a dict never holds
     a duplicate key, and iteration order is insertion order).
   * A raised exception is `Except.error`; per-model prediction failures
     (caught `except` blocks) appear as a model function returning `none`.
   * The historical training series passed around by the Python code is only
     forwarded to the individual model adapters, which are black boxes here, so
     each adapter is embedded as a function of the forecast horizon alone. -/

/-! ## Association-list dictionaries (Python dict, insertion order) -/

def dictLookup {α : Type} : List (String × α) → String → Option α
  | [], _ => none
  | p :: ps, k => if p.1 = k then some p.2 else dictLookup ps k

/-- Python dict assignment: replace in place when the key exists, else append. -/
def dictInsert {α : Type} (l : List (String × α)) (k : String) (v : α) :
    List (String × α) :=
  if l.any (fun p => decide (p.1 = k)) then
    l.map (fun p => if p.1 = k then (k, v) else p)
  else l ++ [(k, v)]

/-! ## Elementwise array arithmetic -/

def addVec (a b : List ℚ) : List ℚ := List.zipWith (fun x y => x + y) a b

def scaleVec (w : ℚ) (v : List ℚ) : List ℚ := v.map (fun x => w * x)

/-- np.sum(list_of_arrays, axis=0) for a non-empty list of equal-length arrays. -/
def sumVecs : List (List ℚ) → List ℚ
  | [] => []
  | [v] => v
  | v :: vs => addVec v (sumVecs vs)

/-! ## ensemble.py -/

structure IntervalResult where
  forecast : List ℚ
  ci_lower : List ℚ
  ci_upper : List ℚ
deriving DecidableEq

/-- An ensemble member: `predict` and `predict_with_intervals` return `none`
when the underlying call raises (or the attribute is absent — the caller skips
the model either way). -/
structure Model where
  predict : Nat → Option (List ℚ)
  predict_with_intervals : Nat → Option IntervalResult

/-- Performance metrics of one model; rmse involves a real square root. -/
structure MetricTriple where
  rmse : ℝ
  mae : ℝ
  mape : ℝ

structure EnsembleForecaster where
  models : List (String × Model)
  weights : List (String × ℚ)
  performance_metrics : List (String × MetricTriple)

/-- `EnsembleForecaster.add_model`. -/
def add_model (e : EnsembleForecaster) (name : String) (model : Model)
    (weight : Option ℚ) : EnsembleForecaster :=
  let e1 := { e with models := dictInsert e.models name model }
  match weight with
  | some w => { e1 with weights := dictInsert e1.weights name w }
  | none => e1

/-- `EnsembleForecaster.set_weights`. -/
def set_weights (e : EnsembleForecaster) (weights : List (String × ℚ)) :
    Except String EnsembleForecaster :=
  if 1/1000000 < |(weights.map Prod.snd).sum - 1| then
    .error "Weights must sum to 1.0"
  else if weights.any (fun nm => (dictLookup e.models nm.1).isNone) then
    .error "Model not found in ensemble"
  else
    .ok { e with weights := weights }

/-- `{name: metrics[name][metric] for name in metrics}`; `none` = KeyError. -/
def getScores (metrics : List (String × List (String × ℚ))) (metric : String) :
    Option (List (String × ℚ)) :=
  match metrics with
  | [] => some []
  | nm :: rest =>
    match dictLookup nm.2 metric, getScores rest metric with
    | some v, some tail => some ((nm.1, v) :: tail)
    | _, _ => none

/-- `EnsembleForecaster.auto_weight_by_performance`.  A zero score, or a zero
inverse total over a non-empty record, raises ZeroDivisionError in Python. -/
def auto_weight_by_performance (e : EnsembleForecaster)
    (metrics : List (String × List (String × ℚ))) (metric : String) :
    Except String EnsembleForecaster :=
  match getScores metrics metric with
  | none => .error "KeyError"
  | some scores =>
    if ∃ s ∈ scores, s.2 = 0 then .error "ZeroDivisionError"
    else
      let inverse_scores := scores.map (fun s => (s.1, 1 / s.2))
      let total_inverse := (inverse_scores.map Prod.snd).sum
      if total_inverse = 0 ∧ metrics ≠ [] then .error "ZeroDivisionError"
      else .ok { e with weights := inverse_scores.map (fun s => (s.1, s.2 / total_inverse)) }

/-- The per-model predictions collected by `predict_volume`: weighted models
whose `predict` call succeeds, in registry order. -/
def modelPredictions (e : EnsembleForecaster) (steps : Nat) :
    List (String × List ℚ) :=
  e.models.filterMap (fun nm =>
    if (dictLookup e.weights nm.1).isSome then
      (nm.2.predict steps).map (fun p => (nm.1, p))
    else none)

/-- `EnsembleForecaster.predict_volume`. -/
def predict_volume (e : EnsembleForecaster) (steps : Nat) :
    Except String (List ℚ) :=
  if e.weights = [] then .error "Weights must be set before prediction"
  else
    let acc := (modelPredictions e steps).foldl
      (fun (st : List ℚ × ℚ) np =>
        let w := (dictLookup e.weights np.1).getD 0
        (addVec st.1 (scaleVec w np.2), st.2 + w))
      (List.replicate steps 0, 0)
    if 0 < acc.2 ∧ 1/1000000 < |acc.2 - 1| then .ok (acc.1.map (fun x => x / acc.2))
    else .ok acc.1

/-- `EnsembleForecaster.predict_with_intervals`. -/
def predict_with_intervals (e : EnsembleForecaster) (steps : Nat) :
    Except String IntervalResult :=
  let results := e.models.filterMap (fun nm =>
    match dictLookup e.weights nm.1 with
    | some w => (nm.2.predict_with_intervals steps).map (fun r => (w, r))
    | none => none)
  match results with
  | [] => .error "No valid interval predictions obtained"
  | _ :: _ =>
    .ok { forecast := sumVecs (results.map (fun wr => scaleVec wr.1 wr.2.forecast))
          ci_lower := sumVecs (results.map (fun wr => scaleVec wr.1 wr.2.ci_lower))
          ci_upper := sumVecs (results.map (fun wr => scaleVec wr.1 wr.2.ci_upper)) }

/-- sklearn/numpy metric formulas over the reals (rmse takes a square root). -/
noncomputable def computeMetrics (y_true y_pred : List ℚ) : MetricTriple :=
  let errs : List ℝ := List.zipWith (fun t p => (t : ℝ) - (p : ℝ)) y_true y_pred
  { rmse := Real.sqrt ((errs.map (fun x => x ^ 2)).sum / errs.length)
    mae := (errs.map (fun x => |x|)).sum / errs.length
    mape := ((List.zipWith (fun (t p : ℚ) => |((t : ℝ) - (p : ℝ)) / (t : ℝ)|) y_true y_pred).sum
              / y_true.length) * 100 }

/-- `EnsembleForecaster.evaluate_models`: evaluates every registered model on
the test series, skipping models whose prediction fails, and stores the record
in `performance_metrics`. -/
noncomputable def evaluate_models (e : EnsembleForecaster) (test : List ℚ) :
    EnsembleForecaster × List (String × MetricTriple) :=
  let steps := test.length
  let metrics := e.models.filterMap (fun nm =>
    (nm.2.predict steps).map (fun pred => (nm.1, computeMetrics test pred)))
  ({ e with performance_metrics := metrics }, metrics)

/-! ### Ensemble operations as a state-transition system -/

/-- The operations of the Ensemble Combiner, with their arguments. -/
inductive Op where
  | add_model (name : String) (model : Model) (weight : Option ℚ)
  | set_weights (weights : List (String × ℚ))
  | auto_weight_by_performance (metrics : List (String × List (String × ℚ))) (metric : String)
  | predict_volume (steps : Nat)
  | predict_with_intervals (steps : Nat)
  | evaluate_models (test : List ℚ)

/-- Combiner state after an operation.  `predict_volume` and
`predict_with_intervals` never assign to `self`, and a raised validation error
propagates before any assignment, leaving the state unchanged. -/
noncomputable def applyOp (e : EnsembleForecaster) : Op → EnsembleForecaster
  | .add_model n m w => add_model e n m w
  | .set_weights ws =>
    match set_weights e ws with
    | .ok e2 => e2
    | .error _ => e
  | .auto_weight_by_performance ms mt =>
    match auto_weight_by_performance e ms mt with
    | .ok e2 => e2
    | .error _ => e
  | .predict_volume _ => e
  | .predict_with_intervals _ => e
  | .evaluate_models test => (evaluate_models e test).1

/-- Invariant: every key of the WeightMap names a registered model. -/
def weightsRegistered (e : EnsembleForecaster) : Prop :=
  ∀ p ∈ e.weights, (dictLookup e.models p.1).isSome = true

instance decWeightsRegistered (e : EnsembleForecaster) :
    Decidable (weightsRegistered e) :=
  inferInstanceAs (Decidable (∀ p ∈ e.weights, (dictLookup e.models p.1).isSome = true))

/-- Side condition under which an operation is claimed to preserve
`weightsRegistered`: `auto_weight_by_performance` needs every model named in
the performance record to be registered; the other operations need nothing. -/
def opPrecond (e : EnsembleForecaster) : Op → Prop
  | .auto_weight_by_performance ms _ => ∀ p ∈ ms, (dictLookup e.models p.1).isSome = true
  | _ => True

/-! ## exogenous.py -/

inductive ExogenousEventType where
  | covid_19
  | wildfire
  | extreme_weather
  | economic_recession
  | major_event
  | regulatory_change
deriving DecidableEq

def ExogenousEventType.value : ExogenousEventType → String
  | .covid_19 => "covid_19"
  | .wildfire => "wildfire"
  | .extreme_weather => "extreme_weather"
  | .economic_recession => "economic_recession"
  | .major_event => "major_event"
  | .regulatory_change => "regulatory_change"

/-- A calendar day; `pd.to_datetime("YYYY-MM")` parses to day 1 of the month. -/
structure Date where
  year : Nat
  month : Nat
  day : Nat
deriving DecidableEq

/-- Timestamp comparison (dates compare lexicographically). -/
def dateLE (a b : Date) : Bool :=
  if a.year ≠ b.year then decide (a.year < b.year)
  else if a.month ≠ b.month then decide (a.month < b.month)
  else decide (a.day ≤ b.day)

/-- pandas `.quarter` of a timestamp. -/
def dateQuarter (d : Date) : Nat := (d.month - 1) / 3 + 1

structure HistoricalPeriod where
  startDate : Date
  endDate : Date
  severity : ℚ
deriving DecidableEq

structure EventDef where
  name : String
  historical_periods : List HistoricalPeriod
  seasonal_pattern : List (Nat × ℚ)
  impact_multiplier : ℚ
deriving DecidableEq

/-- `ExogenousVariableManager._define_events` (the fixed six-entry catalog). -/
def defineEvents : ExogenousEventType → EventDef
  | .covid_19 =>
    { name := "COVID-19 Pandemic"
      historical_periods :=
        [⟨⟨2020, 3, 1⟩, ⟨2021, 6, 1⟩, 8/10⟩, ⟨⟨2021, 7, 1⟩, ⟨2022, 12, 1⟩, 4/10⟩]
      seasonal_pattern := []
      impact_multiplier := -6/10 }
  | .wildfire =>
    { name := "LA Wildfires"
      historical_periods :=
        [⟨⟨2020, 8, 1⟩, ⟨2020, 10, 1⟩, 6/10⟩, ⟨⟨2023, 7, 1⟩, ⟨2023, 8, 1⟩, 4/10⟩]
      seasonal_pattern := []
      impact_multiplier := -3/10 }
  | .extreme_weather =>
    { name := "Extreme Weather Events"
      historical_periods := []
      seasonal_pattern := [(1, 3/10), (2, 2/10), (3, 5/10), (4, 2/10)]
      impact_multiplier := -15/100 }
  | .economic_recession =>
    { name := "Economic Recession"
      historical_periods :=
        [⟨⟨2008, 1, 1⟩, ⟨2009, 12, 1⟩, 9/10⟩, ⟨⟨2020, 3, 1⟩, ⟨2020, 6, 1⟩, 7/10⟩]
      seasonal_pattern := []
      impact_multiplier := -4/10 }
  | .major_event =>
    { name := "Major Events (Olympics, Concerts, etc.)"
      historical_periods := [⟨⟨2028, 7, 1⟩, ⟨2028, 8, 1⟩, 1⟩]
      seasonal_pattern := []
      impact_multiplier := 5/10 }
  | .regulatory_change =>
    { name := "Airbnb Regulation Changes"
      historical_periods := [⟨⟨2019, 1, 1⟩, ⟨2019, 12, 1⟩, 6/10⟩]
      seasonal_pattern := []
      impact_multiplier := -25/100 }

structure ExogenousVariableManager where
  event_definitions : ExogenousEventType → EventDef

/-- `ExogenousVariableManager.__init__`. -/
def mkExogenousVariableManager : ExogenousVariableManager :=
  { event_definitions := defineEvents }

/-- Value of one event's feature column at one date: start from 0, apply each
historical interval in catalog order (in-range dates overwritten with
`severity * impact_multiplier`), then each seasonal entry (quarter-matching
dates overwritten with `intensity * impact_multiplier`). -/
def eventValue (ed : EventDef) (d : Date) : ℚ :=
  let v1 := ed.historical_periods.foldl
    (fun v p => if dateLE p.startDate d && dateLE d p.endDate then
        p.severity * ed.impact_multiplier
      else v) 0
  ed.seasonal_pattern.foldl
    (fun v qi => if dateQuarter d == qi.1 then qi.2 * ed.impact_multiplier else v) v1

/-- Duplicate events in `enabled_events` rewrite the same DataFrame column, so
the set of columns is the set of distinct enabled events in first-occurrence
order. -/
def dedupFirst : List ExogenousEventType → List ExogenousEventType
  | [] => []
  | x :: xs => x :: (dedupFirst xs).filter (fun y => decide (y ≠ x))

/-- `ExogenousVariableManager.create_exogenous_features`: one column per
distinct enabled event, indexed by the date range. -/
def create_exogenous_features (m : ExogenousVariableManager) (date_range : List Date)
    (enabled_events : List ExogenousEventType) : List (String × List ℚ) :=
  (dedupFirst enabled_events).map (fun et =>
    ("exog_" ++ et.value, date_range.map (eventValue (m.event_definitions et))))

structure CustomShock where
  period : String
  impact : ℚ
deriving DecidableEq

structure Scenario where
  name : String
  events : List ExogenousEventType
  custom_shocks : List CustomShock

structure ScenarioResult where
  scenario_name : String
  base_forecast : List ℚ
  adjusted_forecast : List ℚ
  total_impact_pct : List ℚ
  avg_impact_pct : ℚ
  max_negative_impact_pct : ℚ
  max_positive_impact_pct : ℚ
  events_included : List String
  exogenous_features : List (String × List ℚ)
deriving DecidableEq

/-- `exog_df.sum(axis=1)`: per-row sum over the feature columns (0 when there
are no columns). -/
def sumColumns (n : Nat) (cols : List (String × List ℚ)) : List ℚ :=
  (List.range n).map (fun i => (cols.map (fun c => c.2.getD i 0)).sum)

/-- numpy elementwise `base * (1 + impact)` with broadcasting: equal lengths
zip; a length-1 operand broadcasts; anything else raises (`none`). -/
def npBroadcastAdjust (base impact : List ℚ) : Option (List ℚ) :=
  if base.length = impact.length then
    some (List.zipWith (fun b t => b * (1 + t)) base impact)
  else if base.length = 1 then
    some (impact.map (fun t => base.headD 0 * (1 + t)))
  else if impact.length = 1 then
    some (base.map (fun b => b * (1 + impact.headD 0)))
  else none

/-- `ExogenousVariableManager.simulate_scenario`.  Each custom shock's impact
is added to every entry of `total_impact` (the declared period is read but
never matched against the date range).  `np.min` / `np.max` on an empty
`total_impact` raise, as does an impossible broadcast; the second component is
the manager after the call (the method never assigns to `self`, and all numpy
operations allocate fresh arrays). -/
def simulate_scenario (m : ExogenousVariableManager) (base_forecast : List ℚ)
    (date_range : List Date) (scenario : Scenario) :
    Except String ScenarioResult × ExogenousVariableManager :=
  let exog := create_exogenous_features m date_range scenario.events
  let ti0 := sumColumns date_range.length exog
  let total_impact := scenario.custom_shocks.foldl
    (fun ti sh => ti.map (fun x => x + sh.impact)) ti0
  match npBroadcastAdjust base_forecast total_impact with
  | none => (.error "operands could not be broadcast together", m)
  | some adjusted =>
    match total_impact with
    | [] => (.error "zero-size array to reduction operation", m)
    | t :: ts =>
      (.ok
        { scenario_name := scenario.name
          base_forecast := base_forecast
          adjusted_forecast := adjusted
          total_impact_pct := (t :: ts).map (fun x => x * 100)
          avg_impact_pct := ((t :: ts).sum / (t :: ts).length) * 100
          max_negative_impact_pct := (ts.foldl min t) * 100
          max_positive_impact_pct := (ts.foldl max t) * 100
          events_included := scenario.events.map ExogenousEventType.value
          exogenous_features := exog }, m)

/-! ## inference.py -/

/-- A loaded model in the ForecastService.  `hasattr(model,
'predict_with_intervals')` is observable here (when the attribute is missing
the service falls through to plain `predict` instead of the fallback), so that
capability is an `Option` of a fallible call. -/
structure LoadedModel where
  predict : Nat → Option (List ℚ)
  predict_with_intervals : Option (Nat → Option IntervalResult)

structure ForecastService where
  models : List (String × LoadedModel)

structure ForecastOutput where
  forecast : List ℚ
  ci_lower : Option (List ℚ)
  ci_upper : Option (List ℚ)
deriving DecidableEq

/-- `ForecastService._simple_projection`: compounding 3% growth from the
hardcoded base 44594, bounds at plus/minus 5%. -/
def simple_projection (horizon : Nat) : ForecastOutput :=
  let forecast := (List.range horizon).map (fun i => 44594 * ((103 : ℚ)/100) ^ (i + 1))
  { forecast := forecast
    ci_lower := some (forecast.map (fun f => f * (95/100)))
    ci_upper := some (forecast.map (fun f => f * (105/100))) }

/-- `ForecastService.forecast_volume`. -/
def forecast_volume (svc : ForecastService) (horizon : Nat) (model : String)
    (include_intervals : Bool) : ForecastOutput :=
  match dictLookup svc.models model with
  | none => simple_projection horizon
  | some model_obj =>
    match include_intervals, model_obj.predict_with_intervals with
    | true, some f =>
      match f horizon with
      | some r =>
        { forecast := r.forecast, ci_lower := some r.ci_lower, ci_upper := some r.ci_upper }
      | none => simple_projection horizon
    | _, _ =>
      match model_obj.predict horizon with
      | some pred => { forecast := pred, ci_lower := none, ci_upper := none }
      | none => simple_projection horizon

/-! ## Spec-side definitions (stated from the specification's wording, for
refinement comparisons against the source-derived definitions above) -/

/-- The spec's combination recipe for `predict_volume`: accumulate
`sum(weight_i * forecast_i)` elementwise over the (weight, forecast) pairs
actually used; if the total weight actually used is > 0 and differs from 1.0
by more than 1e-6, divide the accumulated sum by the total weight used. -/
def combineSpec (steps : Nat) (pairs : List (ℚ × List ℚ)) : List ℚ :=
  let s := pairs.foldl (fun acc wp => addVec acc (scaleVec wp.1 wp.2))
    (List.replicate steps 0)
  let tw := (pairs.map Prod.fst).sum
  if 0 < tw ∧ 1/1000000 < |tw - 1| then s.map (fun x => x / tw) else s

/-- The (weight, forecast) pairs actually used by `predict_volume`: every
registered model that has a weight and whose invocation succeeds. -/
def usedPairs (e : EnsembleForecaster) (steps : Nat) : List (ℚ × List ℚ) :=
  e.models.filterMap (fun nm =>
    match dictLookup e.weights nm.1 with
    | some w => (nm.2.predict steps).map (fun p => (w, p))
    | none => none)

/-- The spec's weight formula for `auto_weight_by_performance`: each model's
weight is `(1/s) / sum(all 1/s)` over the scores of the record. -/
def autoWeights (scores : List (String × ℚ)) : List (String × ℚ) :=
  scores.map (fun s => (s.1, (1 / s.2) / (scores.map (fun t => (1 : ℚ) / t.2)).sum))

/-- The spec's reading of one event-feature value at one date: a matching
seasonal-pattern entry (the last such, overwriting any historical value) gives
`intensity * impact_multiplier`; otherwise the last historical interval
containing the date gives `severity * impact_multiplier`; otherwise 0. -/
def specEventValue (ed : EventDef) (d : Date) : ℚ :=
  ((ed.seasonal_pattern.reverse.find? (fun qi => dateQuarter d == qi.1)).map
      (fun qi => qi.2 * ed.impact_multiplier)).getD
    (((ed.historical_periods.reverse.find?
          (fun p => dateLE p.startDate d && dateLE d p.endDate)).map
        (fun p => p.severity * ed.impact_multiplier)).getD 0)

/-- Total impact added by the custom shocks (each shock is broadcast to every
period, so the shocks contribute one constant across the horizon). -/
def shockTotal (shocks : List CustomShock) : ℚ :=
  shocks.foldl (fun acc sh => acc + sh.impact) 0

/-! ## Concrete fixtures used by witnesses and counterexamples -/

/-- A model whose point forecast always succeeds with the fixed list `v`. -/
def exModelConst (v : List ℚ) : Model :=
  { predict := fun _ => some v, predict_with_intervals := fun _ => none }

/-- A model whose every invocation raises. -/
def exModelFail : Model :=
  { predict := fun _ => none, predict_with_intervals := fun _ => none }

/-- Two models under names m1, m2 with weight 0.5 each. -/
def twoHalfEnsemble (m1 m2 : Model) : EnsembleForecaster :=
  { models := [("m1", m1), ("m2", m2)]
    weights := [("m1", 1/2), ("m2", 1/2)]
    performance_metrics := [] }

/-- `EnsembleForecaster()` with no arguments: empty registry, empty weights. -/
def initEnsemble : EnsembleForecaster :=
  { models := [], weights := [], performance_metrics := [] }

/-- PerformanceRecord {A: {mape: 10}, B: {mape: 20}}. -/
def recAB : List (String × List (String × ℚ)) :=
  [("A", [("mape", 10)]), ("B", [("mape", 20)])]

/-- PerformanceRecord {A: {mape: 1}, B: {mape: -1}}: every value nonzero, but
the inverses sum to zero. -/
def recMixed : List (String × List (String × ℚ)) :=
  [("A", [("mape", 1)]), ("B", [("mape", -1)])]

/-- One registered, weighted model whose every invocation fails. -/
def oneFailEnsemble : EnsembleForecaster :=
  { models := [("m", exModelFail)], weights := [("m", 1)], performance_metrics := [] }

/-! ## Auxiliary lemmas -/

theorem aux_addVec_replicate_zero (v : List ℚ) :
    addVec (List.replicate v.length 0) v = v := by
  induction v with
  | nil => rfl
  | cons x xs ih =>
    simp only [List.length_cons, List.replicate_succ, addVec,
      List.zipWith_cons_cons, zero_add]
    exact congrArg (x :: ·) ih

theorem aux_zipWith_replicate_right (f : ℚ → ℚ → ℚ) (c : ℚ) :
    ∀ (l : List ℚ), List.zipWith f l (List.replicate l.length c)
      = l.map (fun x => f x c) := by
  intro l
  induction l with
  | nil => rfl
  | cons x xs ih =>
    simp only [List.length_cons, List.replicate_succ, List.zipWith_cons_cons,
      List.map_cons]
    exact congrArg (f x c :: ·) ih

theorem aux_foldl_pair (ps : List (ℚ × List ℚ)) :
    ∀ (v : List ℚ) (t : ℚ),
      ps.foldl (fun (st : List ℚ × ℚ) wp =>
          (addVec st.1 (scaleVec wp.1 wp.2), st.2 + wp.1)) (v, t)
        = (ps.foldl (fun acc wp => addVec acc (scaleVec wp.1 wp.2)) v,
           t + (ps.map Prod.fst).sum) := by
  induction ps with
  | nil => intro v t; simp
  | cons wp rest ih =>
    intro v t
    simp only [List.foldl_cons, List.map_cons, List.sum_cons, ih, add_assoc]

theorem aux_usedPairs_eq_map (e : EnsembleForecaster) (steps : Nat) :
    usedPairs e steps = (modelPredictions e steps).map
      (fun np => ((dictLookup e.weights np.1).getD 0, np.2)) := by
  unfold usedPairs modelPredictions
  induction e.models with
  | nil => rfl
  | cons nm rest ih =>
    simp only [List.filterMap_cons]
    cases hw : dictLookup e.weights nm.1 with
    | none => simpa [hw] using ih
    | some w =>
      cases hp : nm.2.predict steps with
      | none => simpa [hw, hp] using ih
      | some p => simp [hw, hp, ih]

theorem aux_sum_map_div (l : List ℚ) (c : ℚ) :
    (l.map (fun x => x / c)).sum = l.sum / c := by
  induction l with
  | nil => simp
  | cons x xs ih => simp [ih, add_div]

theorem aux_predict_volume_eq_combineSpec (e : EnsembleForecaster) (steps : Nat)
    (h : e.weights ≠ []) :
    predict_volume e steps = .ok (combineSpec steps (usedPairs e steps)) := by
  unfold predict_volume combineSpec
  rw [if_neg h, aux_usedPairs_eq_map, List.foldl_map, List.map_map]
  have hfst : (Prod.fst ∘ fun np : String × List ℚ =>
      ((dictLookup e.weights np.1).getD 0, np.2))
      = fun np : String × List ℚ => (dictLookup e.weights np.1).getD 0 := rfl
  rw [hfst]
  rw [show ((modelPredictions e steps).foldl
      (fun (st : List ℚ × ℚ) np =>
        (addVec st.1 (scaleVec ((dictLookup e.weights np.1).getD 0) np.2),
         st.2 + (dictLookup e.weights np.1).getD 0))
      (List.replicate steps 0, 0))
    = ((modelPredictions e steps).map
        (fun np => ((dictLookup e.weights np.1).getD 0, np.2))).foldl
      (fun (st : List ℚ × ℚ) wp => (addVec st.1 (scaleVec wp.1 wp.2), st.2 + wp.1))
      (List.replicate steps 0, 0) from by rw [List.foldl_map]]
  rw [aux_foldl_pair, List.map_map, hfst, List.foldl_map]
  simp only [zero_add]
  exact (apply_ite Except.ok _ _ _).symm

/-! ## Claims -/

/-- Claim C1: for every ensemble whose weighted models all return a
length-steps forecast, `predict_volume` returns the elementwise sum of
`weight_i * forecast_i` over the pairs actually used, renormalized by the
total weight used whenever that total is positive and differs from 1.0 by
more than 1e-6 (`combineSpec`); with two models of weight 0.5 and forecasts
[10,20] and [30,40] over 2 steps the result is [20,30]; and when one of two
equally-weighted models fails, the result is the surviving model's raw
forecast. -/
theorem claim_C1 :
    (∀ (e : EnsembleForecaster) (steps : Nat), e.weights ≠ [] →
      (∀ nm ∈ e.models, (dictLookup e.weights nm.1).isSome = true →
        ∃ p, nm.2.predict steps = some p ∧ p.length = steps) →
      predict_volume e steps = .ok (combineSpec steps (usedPairs e steps)))
    ∧ predict_volume (twoHalfEnsemble (exModelConst [10, 20]) (exModelConst [30, 40])) 2
        = .ok [20, 30]
    ∧ (∀ (m1 m2 : Model) (steps : Nat) (p : List ℚ),
        m1.predict steps = some p → p.length = steps → m2.predict steps = none →
        predict_volume (twoHalfEnsemble m1 m2) steps = .ok p) := by
  refine ⟨fun e steps h _ => aux_predict_volume_eq_combineSpec e steps h, ?_, ?_⟩
  · simp [predict_volume, twoHalfEnsemble, modelPredictions, exModelConst,
      dictLookup, addVec, scaleVec]
    norm_num
  intro m1 m2 steps p h1 hl h2
  have hw : (twoHalfEnsemble m1 m2).weights ≠ [] := by
    simp [twoHalfEnsemble]
  have hpred : modelPredictions (twoHalfEnsemble m1 m2) steps = [("m1", p)] := by
    simp [modelPredictions, twoHalfEnsemble, dictLookup, h1, h2]
  unfold predict_volume
  rw [if_neg hw, hpred]
  simp only [List.foldl_cons, List.foldl_nil]
  have hlook : dictLookup (twoHalfEnsemble m1 m2).weights "m1" = some (1/2) := by
    simp [twoHalfEnsemble, dictLookup]
  rw [hlook]
  have hlen : (scaleVec ((some ((1 : ℚ)/2)).getD 0) p).length = steps := by
    simp [scaleVec, hl]
  have hvec : addVec (List.replicate steps 0) (scaleVec ((some ((1 : ℚ)/2)).getD 0) p)
      = scaleVec ((some ((1 : ℚ)/2)).getD 0) p := by
    rw [← hlen]; exact aux_addVec_replicate_zero _
  rw [hvec]
  have hcond : (0 < (0 : ℚ) + (some ((1 : ℚ)/2)).getD 0 ∧
      1/1000000 < |(0 : ℚ) + (some ((1 : ℚ)/2)).getD 0 - 1|) := by
    constructor
    · norm_num
    · rw [show (0 : ℚ) + (some ((1 : ℚ)/2)).getD 0 - 1 = -(1/2) from by norm_num,
        abs_neg, abs_of_pos (by norm_num : (0 : ℚ) < 1/2)]
      norm_num
  rw [if_pos hcond]
  have hfun : ∀ x : ℚ, ((1 : ℚ)/2 * x) / ((0 : ℚ) + (some ((1 : ℚ)/2)).getD 0) = x := by
    intro x; norm_num
  simp only [scaleVec, List.map_map, Function.comp, Option.getD_some]
  simp only [Option.getD_some] at hfun
  congr 1
  calc List.map (fun x => 1/2 * x / ((0 : ℚ) + 1/2)) p
      = List.map id p := List.map_congr_left (fun x _ => hfun x)
    _ = p := List.map_id p

/-- Witness for C1: a concrete two-model ensemble where the second model
fails; the result is the surviving model's raw forecast. -/
theorem claim_C1_witness :
    predict_volume (twoHalfEnsemble (exModelConst [7, 8, 9]) exModelFail) 3
      = .ok [7, 8, 9] :=
  claim_C1.2.2 (exModelConst [7, 8, 9]) exModelFail 3 [7, 8, 9] rfl rfl rfl

theorem aux_filterMap_pred_nil (w : List (String × ℚ)) (steps : Nat) :
    ∀ (l : List (String × Model)),
      (∀ nm ∈ l, (dictLookup w nm.1).isSome = true → nm.2.predict steps = none) →
      l.filterMap (fun nm =>
        if (dictLookup w nm.1).isSome then
          (nm.2.predict steps).map (fun p => (nm.1, p))
        else none) = [] := by
  intro l
  induction l with
  | nil => intro _; rfl
  | cons nm rest ih =>
    intro h
    rw [List.filterMap_cons]
    by_cases hs : (dictLookup w nm.1).isSome = true
    · rw [if_pos hs, h nm (List.mem_cons_self nm rest) hs]
      exact ih (fun x hx hxs => h x (List.mem_cons_of_mem nm hx) hxs)
    · rw [if_neg hs]
      exact ih (fun x hx hxs => h x (List.mem_cons_of_mem nm hx) hxs)

/-- Claim C5: `predict_volume` raises a validation error when no weights are
set at all; when weights are set but every weighted model's invocation fails,
it returns a zero vector of length `steps`. -/
theorem claim_C5 :
    (∀ (e : EnsembleForecaster) (steps : Nat), e.weights = [] →
      predict_volume e steps = .error "Weights must be set before prediction")
    ∧ (∀ (e : EnsembleForecaster) (steps : Nat), e.weights ≠ [] →
        (∀ nm ∈ e.models, (dictLookup e.weights nm.1).isSome = true →
          nm.2.predict steps = none) →
        predict_volume e steps = .ok (List.replicate steps 0)) := by
  constructor
  · intro e steps h
    unfold predict_volume
    rw [if_pos h]
  · intro e steps hne hall
    unfold predict_volume
    rw [if_neg hne]
    rw [show modelPredictions e steps = [] from aux_filterMap_pred_nil _ _ _ hall]
    rw [List.foldl_nil, if_neg (fun hc => lt_irrefl (0 : ℚ) hc.1)]

/-- Witness for C5: an ensemble with one weighted model that always fails
yields the zero vector. -/
theorem claim_C5_witness :
    predict_volume oneFailEnsemble 2 = .ok (List.replicate 2 0) :=
  claim_C5.2 oneFailEnsemble 2 (by simp [oneFailEnsemble]) (by
    intro nm hnm _
    simp only [oneFailEnsemble] at hnm
    rw [List.mem_singleton] at hnm
    subst hnm
    rfl)

/-- Claim C6: `set_weights` fails exactly when the proposed weights sum
differs from 1.0 by more than 1e-6 or some key is not a registered model
name; on success the stored WeightMap becomes exactly the argument (other
state unchanged); on failure the combiner state is left unchanged. -/
theorem claim_C6 :
    (∀ (e : EnsembleForecaster) (ws : List (String × ℚ)),
      (∃ msg, set_weights e ws = .error msg) ↔
        (1/1000000 < |(ws.map Prod.snd).sum - 1| ∨
          ∃ p ∈ ws, dictLookup e.models p.1 = none))
    ∧ (∀ (e : EnsembleForecaster) (ws : List (String × ℚ))
         (e2 : EnsembleForecaster),
        set_weights e ws = .ok e2 →
        e2.weights = ws ∧ e2.models = e.models ∧
          e2.performance_metrics = e.performance_metrics)
    ∧ (∀ (e : EnsembleForecaster) (ws : List (String × ℚ)) (msg : String),
        set_weights e ws = .error msg → applyOp e (.set_weights ws) = e) := by
  refine ⟨?_, ?_, ?_⟩
  · intro e ws
    unfold set_weights
    split_ifs with h1 h2
    · exact ⟨fun _ => Or.inl h1, fun _ => ⟨_, rfl⟩⟩
    · constructor
      · intro _
        right
        rcases List.any_eq_true.mp h2 with ⟨p, hp, hnone⟩
        exact ⟨p, hp, Option.isNone_iff_eq_none.mp hnone⟩
      · intro _
        exact ⟨_, rfl⟩
    · constructor
      · rintro ⟨msg, hmsg⟩
        simp at hmsg
      · rintro (hc | ⟨p, hp, hnone⟩)
        · exact absurd hc h1
        · exact absurd
            (List.any_eq_true.mpr ⟨p, hp, Option.isNone_iff_eq_none.mpr hnone⟩) h2
  · intro e ws e2 h
    unfold set_weights at h
    split_ifs at h with h1 h2
    simp only [Except.ok.injEq] at h
    rw [← h]
    exact ⟨rfl, rfl, rfl⟩
  · intro e ws msg h
    change (match set_weights e ws with
      | Except.ok e2 => e2
      | Except.error _ => e) = e
    rw [h]

/-- Witness for C6: replacing the weights with a map naming an unregistered
model fails and leaves the combiner state unchanged. -/
theorem claim_C6_witness :
    applyOp (twoHalfEnsemble (exModelConst [10, 20]) (exModelConst [30, 40]))
        (.set_weights [("zz", 1)])
      = twoHalfEnsemble (exModelConst [10, 20]) (exModelConst [30, 40]) :=
  claim_C6.2.2 _ _ "Model not found in ensemble" (by
    unfold set_weights
    have hs : (List.map Prod.snd [(("zz" : String), (1 : ℚ))]).sum = 1 := by simp
    rw [if_neg (by rw [hs, sub_self, abs_zero]; norm_num),
      if_pos (by simp [twoHalfEnsemble, dictLookup])])

theorem aux_dictLookup_append {α : Type} (l1 l2 : List (String × α)) (k : String) :
    dictLookup (l1 ++ l2) k =
      match dictLookup l1 k with
      | some v => some v
      | none => dictLookup l2 k := by
  induction l1 with
  | nil => rfl
  | cons q qs ih =>
    by_cases hq : q.1 = k
    · simp [dictLookup, hq]
    · simp [dictLookup, hq, ih]

theorem aux_dictLookup_not_mem {α : Type} (l : List (String × α)) (k : String)
    (h : l.any (fun p => decide (p.1 = k)) = false) : dictLookup l k = none := by
  induction l with
  | nil => rfl
  | cons q qs ih =>
    simp only [List.any_cons, Bool.or_eq_false_iff] at h
    have hq : ¬ q.1 = k := of_decide_eq_false h.1
    simp [dictLookup, hq, ih h.2]

theorem aux_lookup_map_replace {α : Type} (k : String) (v : α) :
    ∀ (l : List (String × α)), l.any (fun p => decide (p.1 = k)) = true →
      dictLookup (l.map (fun p => if p.1 = k then (k, v) else p)) k = some v := by
  intro l
  induction l with
  | nil => intro h; simp at h
  | cons q qs ih =>
    intro h
    by_cases hq : q.1 = k
    · simp [dictLookup, hq]
    · have h2 : qs.any (fun p => decide (p.1 = k)) = true := by
        simpa [hq] using h
      simp [dictLookup, hq, ih h2]

theorem aux_dictLookup_dictInsert_self {α : Type} (l : List (String × α))
    (k : String) (v : α) : dictLookup (dictInsert l k v) k = some v := by
  unfold dictInsert
  by_cases hany : l.any (fun p => decide (p.1 = k)) = true
  · rw [if_pos hany]
    exact aux_lookup_map_replace k v l hany
  · have hfalse : l.any (fun p => decide (p.1 = k)) = false := by
      cases hb : l.any (fun p => decide (p.1 = k))
      · rfl
      · exact absurd hb hany
    rw [if_neg hany, aux_dictLookup_append, aux_dictLookup_not_mem l k hfalse]
    simp [dictLookup]

theorem aux_lookup_map_replace_isSome {α : Type} (k k2 : String) (v : α) :
    ∀ (l : List (String × α)), (dictLookup l k2).isSome = true →
      (dictLookup (l.map (fun p => if p.1 = k then (k, v) else p)) k2).isSome
        = true := by
  intro l
  induction l with
  | nil => intro h; simp [dictLookup] at h
  | cons q qs ih =>
    intro h
    by_cases hq2 : q.1 = k2
    · by_cases hqk : q.1 = k
      · have hkk : k = k2 := by rw [← hqk]; exact hq2
        simp [dictLookup, hqk, hkk]
      · have hk2k : ¬ k2 = k := fun hk => hqk (hq2.trans hk)
        simp [dictLookup, hqk, hq2, hk2k]
    · have h2 : (dictLookup qs k2).isSome = true := by
        simpa [dictLookup, hq2] using h
      by_cases hqk : q.1 = k
      · have hkk2 : ¬ k = k2 := fun hk => hq2 (hqk.trans hk)
        simp [dictLookup, hqk, hkk2, ih h2]
      · simp [dictLookup, hqk, hq2, ih h2]

theorem aux_dictInsert_isSome_mono {α : Type} (l : List (String × α))
    (k k2 : String) (v : α) (h : (dictLookup l k2).isSome = true) :
    (dictLookup (dictInsert l k v) k2).isSome = true := by
  unfold dictInsert
  by_cases hany : l.any (fun p => decide (p.1 = k)) = true
  · rw [if_pos hany]
    exact aux_lookup_map_replace_isSome k k2 v l h
  · rw [if_neg hany, aux_dictLookup_append]
    rcases ho : dictLookup l k2 with _ | w
    · rw [ho] at h; simp at h
    · simp [ho]

theorem aux_mem_dictInsert {α : Type} (l : List (String × α)) (k : String)
    (v : α) (p : String × α) (hp : p ∈ dictInsert l k v) : p.1 = k ∨ p ∈ l := by
  unfold dictInsert at hp
  by_cases hany : l.any (fun q => decide (q.1 = k)) = true
  · rw [if_pos hany] at hp
    rcases List.mem_map.mp hp with ⟨q, hq, hpq⟩
    by_cases hqk : q.1 = k
    · left; rw [← hpq]; simp [hqk]
    · right; rw [← hpq]; simpa [hqk] using hq
  · rw [if_neg hany] at hp
    rcases List.mem_append.mp hp with h | h
    · right; exact h
    · left; rw [List.mem_singleton] at h; rw [h]

theorem aux_getScores_names (metric : String) :
    ∀ (ms : List (String × List (String × ℚ))) (scores : List (String × ℚ)),
      getScores ms metric = some scores →
      scores.map Prod.fst = ms.map Prod.fst := by
  intro ms
  induction ms with
  | nil =>
    intro scores h
    simp only [getScores, Option.some.injEq] at h
    rw [← h]; rfl
  | cons nm rest ih =>
    intro scores h
    unfold getScores at h
    rcases hd : dictLookup nm.2 metric with _ | v
    · rw [hd] at h; simp at h
    · rcases hr : getScores rest metric with _ | tail
      · rw [hd, hr] at h; simp at h
      · rw [hd, hr] at h
        simp only [Option.some.injEq] at h
        rw [← h]
        simp [ih tail hr]

/-- Evaluation of `auto_weight_by_performance` on the happy path: every score
present and nonzero, inverses summing to a nonzero total. -/
theorem aux_auto_weight_ok (e : EnsembleForecaster)
    (ms : List (String × List (String × ℚ))) (mt : String)
    (scores : List (String × ℚ))
    (hs : getScores ms mt = some scores)
    (hz : ∀ s ∈ scores, s.2 ≠ 0)
    (htot : (scores.map (fun s => (1 : ℚ) / s.2)).sum ≠ 0) :
    auto_weight_by_performance e ms mt
      = .ok { e with weights := autoWeights scores } := by
  have hmap : List.map Prod.snd (scores.map (fun s => (s.1, (1 : ℚ) / s.2)))
      = scores.map (fun s => (1 : ℚ) / s.2) := by
    rw [List.map_map]; rfl
  simp only [auto_weight_by_performance, hs]
  rw [if_neg (by rintro ⟨s, hsm, h0⟩; exact hz s hsm h0)]
  rw [if_neg (by rintro ⟨h0, _⟩; rw [hmap] at h0; exact htot h0)]
  rw [hmap, List.map_map]
  rfl

/-- Counterexample for C4: starting from the freshly constructed combiner
(empty registry, empty weights — the invariant holds), the operation
`auto_weight_by_performance {ghost: {mape: 1}}` installs a weight for the
unregistered model name "ghost", breaking the weight-keys-are-registered
invariant. -/
theorem claim_C4_counterexample :
    weightsRegistered initEnsemble ∧
      ¬ weightsRegistered (applyOp initEnsemble
        (.auto_weight_by_performance [("ghost", [("mape", 1)])] "mape")) := by
  constructor
  · intro p hp
    simp [initEnsemble] at hp
  · intro hinv
    have hauto := aux_auto_weight_ok initEnsemble [("ghost", [("mape", 1)])] "mape"
      [("ghost", 1)] rfl
      (by intro s hs2; rw [List.mem_singleton] at hs2; rw [hs2]; norm_num)
      (by simp only [List.map_cons, List.map_nil, List.sum_cons, List.sum_nil]
          norm_num)
    have hstep : applyOp initEnsemble
        (.auto_weight_by_performance [("ghost", [("mape", 1)])] "mape")
        = { initEnsemble with weights := autoWeights [("ghost", 1)] } := by
      change (match auto_weight_by_performance initEnsemble
          [("ghost", [("mape", 1)])] "mape" with
        | Except.ok e2 => e2
        | Except.error _ => initEnsemble) = _
      rw [hauto]
    rw [hstep] at hinv
    have hmem : (("ghost", (1 : ℚ)/1 /
        (List.map (fun t : String × ℚ => (1 : ℚ) / t.2) [("ghost", 1)]).sum))
        ∈ autoWeights [("ghost", 1)] := by
      simp [autoWeights]
    have := hinv _ hmem
    simp [dictLookup, initEnsemble] at this

/-- Claim C4 (amended): `add_model`, `set_weights`, `predict_volume`,
`predict_with_intervals` and `evaluate_models` preserve the
weight-keys-are-registered invariant unconditionally, and
`auto_weight_by_performance` preserves it provided every model named in the
supplied performance record is registered (as is the case for records
produced by `evaluate_models`). -/
theorem claim_C4_amended :
    ∀ (e : EnsembleForecaster) (op : Op),
      weightsRegistered e → opPrecond e op → weightsRegistered (applyOp e op) := by
  intro e op hinv hpre
  cases op with
  | add_model n m w =>
    show weightsRegistered (add_model e n m w)
    unfold add_model
    cases w with
    | none =>
      intro p hp
      exact aux_dictInsert_isSome_mono e.models n p.1 m (hinv p hp)
    | some wv =>
      intro p hp
      rcases aux_mem_dictInsert e.weights n wv p hp with h1 | h1
      · rw [h1, aux_dictLookup_dictInsert_self]
        rfl
      · exact aux_dictInsert_isSome_mono e.models n p.1 m (hinv p h1)
  | set_weights ws =>
    show weightsRegistered (match set_weights e ws with
      | Except.ok e2 => e2
      | Except.error _ => e)
    rcases h : set_weights e ws with msg | e2
    · exact hinv
    · unfold set_weights at h
      split_ifs at h with h1 h2
      simp only [Except.ok.injEq] at h
      rw [← h]
      intro p hp
      rcases ho : dictLookup e.models p.1 with _ | mo
      · exact absurd (List.any_eq_true.mpr ⟨p, hp, by rw [ho]; rfl⟩) h2
      · rfl
  | auto_weight_by_performance ms mt =>
    show weightsRegistered (match auto_weight_by_performance e ms mt with
      | Except.ok e2 => e2
      | Except.error _ => e)
    rcases h : auto_weight_by_performance e ms mt with msg | e2
    · exact hinv
    · rcases hs : getScores ms mt with _ | scores
      · simp only [auto_weight_by_performance, hs] at h
        exact Except.noConfusion h
      · simp only [auto_weight_by_performance, hs] at h
        split_ifs at h with hz ht
        simp only [Except.ok.injEq] at h
        rw [← h]
        intro p hp
        rcases List.mem_map.mp hp with ⟨q, hq, hpq⟩
        rcases List.mem_map.mp hq with ⟨s, hsm, hqs⟩
        have hname : p.1 = s.1 := by rw [← hpq, ← hqs]
        have hfst : s.1 ∈ List.map Prod.fst ms := by
          rw [← aux_getScores_names mt ms scores hs]
          exact List.mem_map_of_mem Prod.fst hsm
        rcases List.mem_map.mp hfst with ⟨q2, hq2, hq2eq⟩
        have hreg := hpre q2 hq2
        rw [hname, ← hq2eq]
        exact hreg
  | predict_volume steps => exact hinv
  | predict_with_intervals steps => exact hinv
  | evaluate_models test =>
    intro p hp
    exact hinv p hp

/-- Witness for C4 (amended): adding a model together with its weight to the
fresh combiner keeps every weight key registered. -/
theorem claim_C4_amended_witness :
    weightsRegistered (applyOp initEnsemble (.add_model "x" exModelFail (some 1))) :=
  claim_C4_amended initEnsemble (.add_model "x" exModelFail (some 1))
    (fun p hp => by simp [initEnsemble] at hp) trivial

/-- Counterexample for C2: in the record {A: {mape: 1}, B: {mape: -1}} every
listed model has a nonzero value for the metric, yet the inverses sum to
zero, so `auto_weight_by_performance` raises ZeroDivisionError instead of
producing a weight map summing to 1.0, and the stored weights are unchanged
(still empty). -/
theorem claim_C2_counterexample :
    (∀ s ∈ [(("A" : String), (1 : ℚ)), ("B", -1)], s.2 ≠ 0)
    ∧ auto_weight_by_performance initEnsemble recMixed "mape"
        = .error "ZeroDivisionError"
    ∧ applyOp initEnsemble (.auto_weight_by_performance recMixed "mape")
        = initEnsemble := by
  have hsc : getScores recMixed "mape" = some [("A", (1 : ℚ)), ("B", -1)] := rfl
  have herr : auto_weight_by_performance initEnsemble recMixed "mape"
      = .error "ZeroDivisionError" := by
    simp only [auto_weight_by_performance, hsc]
    rw [if_neg (by
      rintro ⟨s, hs2, h0⟩
      rcases List.mem_cons.mp hs2 with h | h
      · rw [h] at h0; norm_num at h0
      · rw [List.mem_singleton] at h; rw [h] at h0; norm_num at h0)]
    rw [if_pos ⟨by
      simp only [List.map_cons, List.map_nil, List.sum_cons, List.sum_nil]
      norm_num, by simp [recMixed]⟩]
  refine ⟨?_, herr, ?_⟩
  · intro s hs2
    rcases List.mem_cons.mp hs2 with h | h
    · rw [h]; norm_num
    · rw [List.mem_singleton] at h; rw [h]; norm_num
  · change (match auto_weight_by_performance initEnsemble recMixed "mape" with
      | Except.ok e2 => e2
      | Except.error _ => initEnsemble) = initEnsemble
    rw [herr]

/-- Claim C2 (amended): for every performance record in which each listed
model has a nonzero value for the chosen metric and the inverses 1/s sum to
a nonzero total (true in particular for any nonempty record of positive
error values), `auto_weight_by_performance` sets each model's new weight to
`(1/s) / sum(all 1/s)`, producing a weight map that sums exactly to 1.0 and
whose keys are exactly the models present in the record; for the record
{A: 10, B: 20} on mape the weights are A = 2/3 > B = 1/3.  On records
violating the side condition the call raises ZeroDivisionError and leaves
the weights unchanged. -/
theorem claim_C2_amended :
    (∀ (e : EnsembleForecaster) (metrics : List (String × List (String × ℚ)))
       (metric : String) (scores : List (String × ℚ)),
      getScores metrics metric = some scores →
      (∀ s ∈ scores, s.2 ≠ 0) →
      (scores.map (fun s => (1 : ℚ) / s.2)).sum ≠ 0 →
      auto_weight_by_performance e metrics metric
          = .ok { e with weights := autoWeights scores }
        ∧ ((autoWeights scores).map Prod.snd).sum = 1
        ∧ (autoWeights scores).map Prod.fst = metrics.map Prod.fst)
    ∧ (auto_weight_by_performance initEnsemble recAB "mape"
          = .ok { initEnsemble with weights := [("A", 2/3), ("B", 1/3)] }
        ∧ ((2 : ℚ)/3 > 1/3)) := by
  constructor
  · intro e metrics metric scores hs hz htot
    refine ⟨aux_auto_weight_ok e metrics metric scores hs hz htot, ?_, ?_⟩
    · have h1 : (autoWeights scores).map Prod.snd
          = (scores.map (fun s => (1 : ℚ) / s.2)).map
              (fun x => x / (scores.map (fun t => (1 : ℚ) / t.2)).sum) := by
        unfold autoWeights
        rw [List.map_map, List.map_map]
        rfl
      rw [h1, aux_sum_map_div, div_self htot]
    · unfold autoWeights
      rw [List.map_map]
      have hc : (Prod.fst ∘ fun s : String × ℚ =>
          (s.1, (1 / s.2) / (scores.map (fun t => (1 : ℚ) / t.2)).sum))
          = Prod.fst := rfl
      rw [hc]
      exact aux_getScores_names metric metrics scores hs
  · constructor
    · have h := aux_auto_weight_ok initEnsemble recAB "mape"
        [("A", 10), ("B", 20)] rfl
        (by intro s hs2
            rcases List.mem_cons.mp hs2 with h | h
            · rw [h]; norm_num
            · rw [List.mem_singleton] at h; rw [h]; norm_num)
        (by simp only [List.map_cons, List.map_nil, List.sum_cons, List.sum_nil]
            norm_num)
      have hw : autoWeights [(("A" : String), (10 : ℚ)), ("B", 20)]
          = [("A", 2/3), ("B", 1/3)] := by
        simp only [autoWeights, List.map_cons, List.map_nil, List.sum_cons,
          List.sum_nil, List.cons.injEq, Prod.mk.injEq]
        norm_num
      rw [h, hw]
    · norm_num

/-- Witness for C2 (amended): the weights produced for the record
{A: 10, B: 20} sum exactly to 1. -/
theorem claim_C2_amended_witness :
    ((autoWeights [(("A" : String), (10 : ℚ)), ("B", 20)]).map Prod.snd).sum = 1 :=
  (claim_C2_amended.1 initEnsemble recAB "mape" [("A", 10), ("B", 20)] rfl
    (by intro s hs2
        rcases List.mem_cons.mp hs2 with h | h
        · rw [h]; norm_num
        · rw [List.mem_singleton] at h; rw [h]; norm_num)
    (by simp only [List.map_cons, List.map_nil, List.sum_cons, List.sum_nil]
        norm_num)).2.1

theorem aux_sumColumns_nil (n : Nat) : sumColumns n [] = List.replicate n 0 := by
  unfold sumColumns
  have h : ∀ (l : List Nat), l.map (fun _ => (0 : ℚ)) = List.replicate l.length 0 := by
    intro l
    induction l with
    | nil => rfl
    | cons x xs ih => simp [ih, List.replicate_succ]
  have h2 : (fun i : Nat => (List.map (fun c : String × List ℚ => c.2.getD i 0) []).sum)
      = fun _ : Nat => (0 : ℚ) := rfl
  rw [h2, h, List.length_range]

theorem aux_shock_replicate (shocks : List CustomShock) :
    ∀ (n : Nat) (c : ℚ),
      shocks.foldl (fun ti sh => ti.map (fun x => x + sh.impact))
          (List.replicate n c)
        = List.replicate n (shocks.foldl (fun acc sh => acc + sh.impact) c) := by
  induction shocks with
  | nil => intro n c; rfl
  | cons sh rest ih =>
    intro n c
    simp only [List.foldl_cons, List.map_replicate]
    exact ih n (c + sh.impact)

theorem aux_foldl_min_replicate (c : ℚ) :
    ∀ n, (List.replicate n c).foldl min c = c := by
  intro n
  induction n with
  | zero => rfl
  | succ k ih => simp only [List.replicate_succ, List.foldl_cons, min_self, ih]

theorem aux_foldl_max_replicate (c : ℚ) :
    ∀ n, (List.replicate n c).foldl max c = c := by
  intro n
  induction n with
  | zero => rfl
  | succ k ih => simp only [List.replicate_succ, List.foldl_cons, max_self, ih]

/-- Result of `simulate_scenario` with no enabled events: every period's
impact is the same broadcast shock total. -/
theorem aux_simulate_no_events (m : ExogenousVariableManager) (b : List ℚ)
    (dr : List Date) (name : String) (shocks : List CustomShock)
    (hne : dr ≠ []) (hb : b.length = dr.length) :
    (simulate_scenario m b dr ⟨name, [], shocks⟩).1
      = .ok { scenario_name := name
              base_forecast := b
              adjusted_forecast := b.map (fun x => x * (1 + shockTotal shocks))
              total_impact_pct := List.replicate dr.length (shockTotal shocks * 100)
              avg_impact_pct := shockTotal shocks * 100
              max_negative_impact_pct := shockTotal shocks * 100
              max_positive_impact_pct := shockTotal shocks * 100
              events_included := []
              exogenous_features := [] } := by
  rcases dr with _ | ⟨d0, dtl⟩
  · exact absurd rfl hne
  simp only [simulate_scenario]
  rw [show create_exogenous_features m (d0 :: dtl) [] = [] from rfl]
  rw [aux_sumColumns_nil, aux_shock_replicate]
  rw [show (shocks.foldl (fun acc sh => acc + sh.impact) 0) = shockTotal shocks from rfl]
  have hnp : npBroadcastAdjust b
      (List.replicate (d0 :: dtl).length (shockTotal shocks))
      = some (b.map (fun x => x * (1 + shockTotal shocks))) := by
    unfold npBroadcastAdjust
    rw [if_pos (by rw [List.length_replicate, hb])]
    rw [← hb, aux_zipWith_replicate_right]
  rw [hnp]
  rw [show (d0 :: dtl).length = dtl.length + 1 from rfl, List.replicate_succ]
  have havg : (shockTotal shocks + dtl.length • shockTotal shocks) /
      (((dtl.length + 1 : Nat) : ℚ)) * 100 = shockTotal shocks * 100 := by
    have hc : ((dtl.length : ℚ) + 1) ≠ 0 := by positivity
    push_cast
    rw [nsmul_eq_mul]
    field_simp
    ring
  simp only [List.map_cons, List.map_nil, List.map_replicate, List.sum_cons,
    List.sum_replicate, List.length_cons, List.length_replicate,
    aux_foldl_min_replicate, aux_foldl_max_replicate]
  rw [havg, ← List.replicate_succ]

/-- Claim C3: a custom shock's impact is broadcast to every period of the
horizon, not only the period it declares: with a single shock
{period: "2024-Q3", impact: -0.2} over a 4-step horizon and no enabled
events, every entry of the total impact is -20% and each adjusted value is
base * (1 - 0.2). -/
theorem claim_C3 :
    ∀ (m : ExogenousVariableManager) (b : List ℚ) (dr : List Date),
      dr.length = 4 → b.length = 4 →
      Except.map (fun r => (r.total_impact_pct, r.adjusted_forecast))
          (simulate_scenario m b dr
            ⟨"Custom Shock", [], [⟨"2024-Q3", -(1/5)⟩]⟩).1
        = .ok (List.replicate 4 (-20), b.map (fun x => x * (1 + (-(1/5))))) := by
  intro m b dr hdr hb
  have hne : dr ≠ [] := by
    intro h
    rw [h] at hdr
    simp at hdr
  rw [aux_simulate_no_events m b dr "Custom Shock" [⟨"2024-Q3", -(1/5)⟩] hne
    (by rw [hb, hdr])]
  simp only [Except.map]
  have hst : shockTotal [⟨"2024-Q3", -(1/5)⟩] = -(1/5) := by
    unfold shockTotal
    simp
  rw [hst, hdr, show (-(1/5) : ℚ) * 100 = -20 by norm_num]

/-- Counterexample for C8: the identity claim is quantified over every base
forecast and date range, but on an empty date range `simulate_scenario`
raises (np.min of an empty reduction) instead of returning the base
forecast, and a length-1 base forecast against a 2-date range broadcasts
to length 2, so the returned adjusted forecast is not the base forecast. -/
theorem claim_C8_counterexample :
    (simulate_scenario mkExogenousVariableManager [] [] ⟨"Baseline", [], []⟩).1
        = .error "zero-size array to reduction operation"
    ∧ Except.map (fun r => r.adjusted_forecast)
        (simulate_scenario mkExogenousVariableManager [5]
          [⟨2024, 1, 1⟩, ⟨2024, 4, 1⟩] ⟨"Baseline", [], []⟩).1 = .ok [5, 5]
    ∧ ([5, 5] : List ℚ) ≠ [5] := by
  refine ⟨rfl, ?_, by simp⟩
  have h : Except.map (fun r => r.adjusted_forecast)
      (simulate_scenario mkExogenousVariableManager [5]
        [⟨2024, 1, 1⟩, ⟨2024, 4, 1⟩] ⟨"Baseline", [], []⟩).1
      = .ok [5 * (1 + 0), 5 * (1 + 0)] := rfl
  rw [h]
  norm_num

/-- Claim C8 (amended): for every scenario with zero enabled events and zero
custom shocks, over a non-empty date range with a base forecast of matching
length, `simulate_scenario` returns an adjusted forecast exactly equal to
the base forecast. -/
theorem claim_C8_amended :
    ∀ (m : ExogenousVariableManager) (b : List ℚ) (dr : List Date)
      (s : Scenario),
      s.events = [] → s.custom_shocks = [] → dr ≠ [] → b.length = dr.length →
      Except.map (fun r => r.adjusted_forecast) (simulate_scenario m b dr s).1
        = .ok b := by
  intro m b dr s he hc hne hb
  rcases s with ⟨nm, ev, cs⟩
  simp only at he hc
  subst he
  subst hc
  rw [aux_simulate_no_events m b dr nm [] hne hb]
  simp only [Except.map]
  rw [show shockTotal ([] : List CustomShock) = 0 from rfl]
  have hfun : (fun x : ℚ => x * (1 + 0)) = fun x => x := by
    funext x
    ring
  rw [hfun, List.map_id']

/-- Witness for C8 (amended): the empty scenario over a one-quarter horizon
returns the base forecast unchanged. -/
theorem claim_C8_amended_witness :
    Except.map (fun r => r.adjusted_forecast)
      (simulate_scenario mkExogenousVariableManager [7] [⟨2024, 1, 1⟩]
        ⟨"Baseline", [], []⟩).1 = .ok [7] :=
  claim_C8_amended mkExogenousVariableManager [7] [⟨2024, 1, 1⟩]
    ⟨"Baseline", [], []⟩ rfl rfl (by simp) rfl

/-- Claim C10: `simulate_scenario` is free of side effects on its inputs: the
manager (and with it the event catalog) is returned unchanged whether the
call succeeds or raises, and the base_forecast field of a successful result
is the input base forecast itself. -/
theorem claim_C10 :
    ∀ (m : ExogenousVariableManager) (b : List ℚ) (dr : List Date)
      (s : Scenario),
      (simulate_scenario m b dr s).2 = m ∧
      Except.map (fun r => r.base_forecast) (simulate_scenario m b dr s).1
        = Except.map (fun _ => b) (simulate_scenario m b dr s).1 := by
  intro m b dr s
  constructor
  · simp only [simulate_scenario]
    split
    · rfl
    · split
      · rfl
      · rfl
  · simp only [simulate_scenario]
    split
    · rfl
    · split
      · rfl
      · rfl

/-- Witness for C3: the four-quarter 2024 horizon with base [100, 200, 300,
400] and the single -0.2 shock. -/
theorem claim_C3_witness :
    Except.map (fun r => (r.total_impact_pct, r.adjusted_forecast))
        (simulate_scenario mkExogenousVariableManager [100, 200, 300, 400]
          [⟨2024, 1, 1⟩, ⟨2024, 4, 1⟩, ⟨2024, 7, 1⟩, ⟨2024, 10, 1⟩]
          ⟨"Custom Shock", [], [⟨"2024-Q3", -(1/5)⟩]⟩).1
      = .ok (List.replicate 4 (-20),
          [100, 200, 300, 400].map (fun x => x * (1 + (-(1/5))))) :=
  claim_C3 mkExogenousVariableManager [100, 200, 300, 400]
    [⟨2024, 1, 1⟩, ⟨2024, 4, 1⟩, ⟨2024, 7, 1⟩, ⟨2024, 10, 1⟩] rfl rfl

theorem aux_foldl_overwrite {α : Type} (f : α → Bool) (g : α → ℚ) :
    ∀ (l : List α) (v0 : ℚ),
      l.foldl (fun v x => if f x then g x else v) v0 =
        ((l.reverse.find? f).map g).getD v0 := by
  intro l
  induction l with
  | nil => intro v0; rfl
  | cons a as ih =>
    intro v0
    rw [List.foldl_cons, ih, List.reverse_cons, List.find?_append]
    cases hr : as.reverse.find? f with
    | some x => simp [Option.or]
    | none =>
      cases hfa : f a with
      | true => simp [Option.or, List.find?, hfa]
      | false => simp [Option.or, List.find?, hfa]

theorem aux_eventValue_spec (ed : EventDef) (d : Date) :
    eventValue ed d = specEventValue ed d := by
  unfold eventValue specEventValue
  dsimp only
  rw [aux_foldl_overwrite
    (fun p : HistoricalPeriod => dateLE p.startDate d && dateLE d p.endDate)
    (fun p : HistoricalPeriod => p.severity * ed.impact_multiplier)
    ed.historical_periods 0]
  exact aux_foldl_overwrite
    (fun qi : Nat × ℚ => dateQuarter d == qi.1)
    (fun qi : Nat × ℚ => qi.2 * ed.impact_multiplier)
    ed.seasonal_pattern _

theorem aux_featureName_inj :
    ∀ a b : ExogenousEventType,
      ("exog_" ++ a.value) = ("exog_" ++ b.value) → a = b := by
  intro a b
  cases a <;> cases b <;> intro h <;> first
    | rfl
    | exact absurd h (by decide)

theorem aux_mem_dedupFirst :
    ∀ (l : List ExogenousEventType) (a : ExogenousEventType),
      a ∈ dedupFirst l ↔ a ∈ l := by
  intro l
  induction l with
  | nil => intro a; exact Iff.rfl
  | cons x xs ih =>
    intro a
    simp only [dedupFirst, List.mem_cons, List.mem_filter, ih,
      decide_eq_true_eq]
    constructor
    · rintro (h | ⟨h, _⟩)
      · exact Or.inl h
      · exact Or.inr h
    · rintro (h | h)
      · exact Or.inl h
      · by_cases hax : a = x
        · exact Or.inl hax
        · exact Or.inr ⟨h, hax⟩

theorem aux_lookup_feature (m : ExogenousVariableManager) (dr : List Date) :
    ∀ (l : List ExogenousEventType) (et : ExogenousEventType),
      dictLookup (l.map (fun x =>
          ("exog_" ++ x.value, dr.map (eventValue (m.event_definitions x)))))
        ("exog_" ++ et.value)
      = if et ∈ l then some (dr.map (eventValue (m.event_definitions et)))
        else none := by
  intro l
  induction l with
  | nil => intro et; simp [dictLookup]
  | cons x xs ih =>
    intro et
    by_cases hx : x = et
    · subst hx
      simp [dictLookup]
    · have hne : ¬("exog_" ++ x.value) = ("exog_" ++ et.value) :=
        fun h => hx (aux_featureName_inj x et h)
      simp only [List.map_cons, dictLookup, if_neg hne, ih]
      by_cases hmem : et ∈ xs
      · rw [if_pos hmem, if_pos (List.mem_cons_of_mem x hmem)]
      · rw [if_neg hmem, if_neg (by
          intro hc
          rcases List.mem_cons.mp hc with h | h
          · exact hx h.symm
          · exact hmem h)]

/-- Claim C7: each enabled event's feature column is built by overwriting:
per date, the value is the last matching seasonal-pattern entry's
`intensity * impact_multiplier` (seasonal assignments happening after, and
clobbering, historical-interval assignments), else the last containing
historical interval's `severity * impact_multiplier`, else 0
(`specEventValue`); an enabled event contributes exactly one column holding
these values, and an event not in `enabled_events` contributes no column. -/
theorem claim_C7 :
    (∀ (ed : EventDef) (d : Date), eventValue ed d = specEventValue ed d)
    ∧ (∀ (m : ExogenousVariableManager) (dr : List Date)
         (enabled : List ExogenousEventType) (et : ExogenousEventType),
        et ∈ enabled →
        dictLookup (create_exogenous_features m dr enabled) ("exog_" ++ et.value)
          = some (dr.map (eventValue (m.event_definitions et))))
    ∧ (∀ (m : ExogenousVariableManager) (dr : List Date)
         (enabled : List ExogenousEventType) (et : ExogenousEventType),
        et ∉ enabled →
        dictLookup (create_exogenous_features m dr enabled)
          ("exog_" ++ et.value) = none) := by
  refine ⟨aux_eventValue_spec, ?_, ?_⟩
  · intro m dr enabled et hmem
    unfold create_exogenous_features
    rw [aux_lookup_feature m dr (dedupFirst enabled) et,
      if_pos ((aux_mem_dedupFirst enabled et).mpr hmem)]
  · intro m dr enabled et hmem
    unfold create_exogenous_features
    rw [aux_lookup_feature m dr (dedupFirst enabled) et,
      if_neg (fun hc => hmem ((aux_mem_dedupFirst enabled et).mp hc))]

/-- Witness for C7: the wildfire column exists for an enabled wildfire event
and holds the per-date event values. -/
theorem claim_C7_witness :
    dictLookup (create_exogenous_features mkExogenousVariableManager
        [⟨2023, 7, 15⟩] [.wildfire]) ("exog_" ++ ExogenousEventType.wildfire.value)
      = some ([⟨2023, 7, 15⟩].map (eventValue
          (mkExogenousVariableManager.event_definitions .wildfire))) :=
  claim_C7.2.1 mkExogenousVariableManager [⟨2023, 7, 15⟩] [.wildfire] .wildfire
    (List.mem_singleton.mpr rfl)

/-- Claim C9: `forecast_volume` never fails: when the requested model is not
loaded, or the invoked prediction call raises, it returns the deterministic
compounding-growth fallback whose forecast is
`44594 * 1.03 ^ (i+1)` with bounds at plus/minus 5%. -/
theorem claim_C9 :
    (∀ (svc : ForecastService) (horizon : Nat) (model : String) (ii : Bool),
      dictLookup svc.models model = none →
      forecast_volume svc horizon model ii = simple_projection horizon)
    ∧ (∀ (svc : ForecastService) (horizon : Nat) (model : String)
         (mo : LoadedModel) (f : Nat → Option IntervalResult),
        dictLookup svc.models model = some mo →
        mo.predict_with_intervals = some f → f horizon = none →
        forecast_volume svc horizon model true = simple_projection horizon)
    ∧ (∀ (svc : ForecastService) (horizon : Nat) (model : String)
         (mo : LoadedModel) (ii : Bool),
        dictLookup svc.models model = some mo →
        (ii = false ∨ mo.predict_with_intervals = none) →
        mo.predict horizon = none →
        forecast_volume svc horizon model ii = simple_projection horizon)
    ∧ (∀ horizon : Nat,
        (simple_projection horizon).forecast
            = (List.range horizon).map (fun i => 44594 * ((103 : ℚ)/100) ^ (i + 1))
        ∧ (simple_projection horizon).ci_lower
            = some ((simple_projection horizon).forecast.map (fun f => f * (95/100)))
        ∧ (simple_projection horizon).ci_upper
            = some ((simple_projection horizon).forecast.map (fun f => f * (105/100)))) := by
  refine ⟨?_, ?_, ?_, fun horizon => ⟨rfl, rfl, rfl⟩⟩
  · intro svc horizon model ii h
    simp only [forecast_volume, h]
  · intro svc horizon model mo f hlook hpwi hf
    simp only [forecast_volume, hlook, hpwi, hf]
  · intro svc horizon model mo ii hlook hii hpred
    rcases hii with hii | hii
    · subst hii
      rcases hpwi : mo.predict_with_intervals with _ | f <;>
        simp only [forecast_volume, hlook, hpwi, hpred]
    · simp only [forecast_volume, hlook, hii, hpred]

/-- Witness for C9: requesting the (unloaded) ensemble model from an empty
service returns the fallback projection. -/
theorem claim_C9_witness :
    forecast_volume ⟨[]⟩ 4 "ensemble" true = simple_projection 4 :=
  claim_C9.1 ⟨[]⟩ 4 "ensemble" true rfl
